import Mathlib

/-!
Verification of the novig-scripter core against its specification.

The development shallowly embeds the transcript-acquisition chain
(src/lib/transcript.ts), the caption-XML parser (the transcript API route),
the script post-processing (src/lib/generate-script.ts) and the client-side
timeline recomputation (src/app/page.tsx) as executable Lean functions.
JavaScript strings are modelled as List Char / String, JavaScript numbers as
exact rationals (the concrete values exercised here round identically in
IEEE doubles), and Math.round as the function jsRound below.  Scanning
functions that mirror JavaScript regular-expression loops take an explicit
fuel argument; callers always pass a fuel that exceeds the input length, so
the fuel never runs out.
-/

namespace NovigScripter

/-- Whitespace as matched by the JavaScript patterns used in the sources
(ASCII part of the regex class backslash-s and of String.prototype.trim). -/
def jsIsSpace (c : Char) : Bool :=
  c = ' ' || c = '\t' || c = '\n' || c = '\r' || c = '\x0b' || c = '\x0c'

/-- Case folding used for the case-insensitive regex flag. -/
def lowerChar (c : Char) : Char := c.toLower

/-- Case-insensitive prefix test on character lists. -/
def isPrefixCI : List Char → List Char → Bool
  | [], _ => true
  | _ :: _, [] => false
  | p :: ps, c :: cs => (lowerChar p == lowerChar c) && isPrefixCI ps cs

/-- Leftmost case-insensitive occurrence of pat: returns the suffix of s
starting at the match, scanning position by position like a regex engine. -/
def findCI (pat : List Char) : List Char → Option (List Char)
  | [] => if pat.isEmpty then some [] else none
  | c :: rest =>
    if isPrefixCI pat (c :: rest) then some (c :: rest) else findCI pat rest

/-- Whether pat occurs (case-insensitively) anywhere in s. -/
def containsCI (pat s : List Char) : Bool := (findCI pat s).isSome

/-- Prefix of s strictly before the leftmost case-insensitive occurrence of
pat; none when pat does not occur.  Mirrors a lazy capture bounded by a
lookahead. -/
def findCIPre (pat : List Char) : List Char → Option (List Char)
  | [] => if pat.isEmpty then some [] else none
  | c :: rest =>
    if isPrefixCI pat (c :: rest) then some []
    else (findCIPre pat rest).map (c :: ·)

/-- Leftmost (case-sensitive) occurrence of pat in s, returning the part
before the match and the part after it. -/
def findSplit (pat : List Char) : List Char → Option (List Char × List Char)
  | [] => if pat.isEmpty then some ([], []) else none
  | c :: rest =>
    if pat.isPrefixOf (c :: rest) then some ([], (c :: rest).drop pat.length)
    else
      match findSplit pat rest with
      | some (pre, post) => some (c :: pre, post)
      | none => none

/-- Whether pat occurs (case-sensitively) anywhere in s. -/
def containsLit (pat s : List Char) : Bool := (findSplit pat s).isSome

/-- String.prototype.trim on character lists. -/
def trimL (s : List Char) : List Char :=
  ((s.dropWhile jsIsSpace).reverse.dropWhile jsIsSpace).reverse

/-- String.prototype.trim. -/
def jsTrim (s : String) : String := ⟨trimL s.data⟩

/-- One pass of String.prototype.replace with a global literal pattern:
leftmost-first, non-overlapping, replacements are not rescanned.  Fuel
exceeds the input length at every call site. -/
def replAux (pat repl : List Char) : Nat → List Char → List Char
  | 0, s => s
  | _ + 1, [] => []
  | fuel + 1, c :: rest =>
    if pat.isPrefixOf (c :: rest) then
      repl ++ replAux pat repl fuel ((c :: rest).drop pat.length)
    else c :: replAux pat repl fuel rest

/-- String.prototype.replace with a global literal pattern. -/
def replaceAllL (pat repl s : List Char) : List Char :=
  replAux pat repl (s.length + 1) s

/-- text.split with the whitespace-run regex: separators are maximal runs of
whitespace; a leading or trailing run contributes an empty piece, exactly as
in JavaScript.  The Bool is true while skipping a separator run. -/
def splitWsGo : Bool → List Char → List Char → List (List Char)
  | _, [], acc => [acc.reverse]
  | true, c :: rest, _ =>
    if jsIsSpace c then splitWsGo true rest [] else splitWsGo false rest [c]
  | false, c :: rest, acc =>
    if jsIsSpace c then acc.reverse :: splitWsGo true rest []
    else splitWsGo false rest (c :: acc)

/-- wordCount from generate-script.ts: split on whitespace runs, drop empty
pieces, count. -/
def wordCount (text : String) : Nat :=
  ((splitWsGo false text.data []).filter (· ≠ [])).length

/-- Math.round: round half toward positive infinity. -/
def jsRound (q : ℚ) : ℤ := ⌊q + 1/2⌋

/-- The fixed speaking rate, 2.8 words per second (generate-script.ts and
page.tsx). -/
def WORDS_PER_SECOND : ℚ := 2.8

/-- Seconds derived from a section text: Math.round(wordCount(text) / 2.8).
The JavaScript value is a non-negative integer, modelled in Nat. -/
def sectionSeconds (text : String) : Nat :=
  (jsRound ((wordCount text : ℚ) / WORDS_PER_SECOND)).toNat

/-! ## Caption-XML parser (parseCaptionXml in the transcript API route)

The route parses captions with the global regexes
  (open tag, then any non-gt characters, then gt, then a lazy body, then the
  close tag)
for text, p-with-attributes and s elements.  For such a pattern the regex
engine emits, left to right: at each occurrence of the literal open text,
the first gt character after it, then the body up to the first occurrence of
the close literal; when either is missing no further match exists. -/

/-- All captures of an open/body/close tag regex, in document order. -/
def tagAux (openLit closeLit : List Char) : Nat → List Char → List (List Char)
  | 0, _ => []
  | fuel + 1, s =>
    match findSplit openLit s with
    | none => []
    | some (_, afterOpen) =>
      match findSplit ['>'] afterOpen with
      | none => []
      | some (_, afterGt) =>
        match findSplit closeLit afterGt with
        | none => []
        | some (body, rest) => body :: tagAux openLit closeLit fuel rest

/-- matchAll for an open/body/close tag regex. -/
def tagMatches (openLit closeLit s : List Char) : List (List Char) :=
  tagAux openLit closeLit (s.length + 1) s

/-- Entity decoding of a manual caption segment: the five fixed entities,
then newlines to spaces (in source order). -/
def decodeTextSeg (seg : List Char) : List Char :=
  replaceAllL ['&', 'l', 't', ';'] ['<']
    (replaceAllL ['&', 'g', 't', ';'] ['>']
      (replaceAllL ['&', '#', '3', '9', ';'] ['\x27']
        (replaceAllL ['&', 'q', 'u', 'o', 't', ';'] ['"']
          (replaceAllL ['&', 'a', 'm', 'p', ';'] ['&'] seg))))

/-- Entity decoding of an ASR inner segment: only amp, apostrophe and quote
entities, then newlines to spaces, then trim (in source order). -/
def decodeAsrSeg (seg : List Char) : List Char :=
  trimL (replaceAllL ['\n'] [' ']
    (replaceAllL ['&', 'q', 'u', 'o', 't', ';'] ['"']
      (replaceAllL ['&', '#', '3', '9', ';'] ['\x27']
        (replaceAllL ['&', 'a', 'm', 'p', ';'] ['&'] seg))))

/-- The manual-caption decode also collapses newlines (after the entity
pass). -/
def decodeTextSegFull (seg : List Char) : List Char :=
  replaceAllL ['\n'] [' '] (decodeTextSeg seg)

/-- Captures of the text-element regex. -/
def captionTextMatches (xml : List Char) : List (List Char) :=
  tagMatches ['<', 't', 'e', 'x', 't'] ['<', '/', 't', 'e', 'x', 't', '>'] xml

/-- Captures of the p-element regex (note the mandatory space: the pattern
requires an attribute list). -/
def captionPMatches (xml : List Char) : List (List Char) :=
  tagMatches ['<', 'p', ' '] ['<', '/', 'p', '>'] xml

/-- Captures of the s-element regex inside one p capture. -/
def captionSMatches (pm : List Char) : List (List Char) :=
  tagMatches ['<', 's'] ['<', '/', 's', '>'] pm

/-- parseCaptionXml from the transcript API route, verbatim structure:
try text elements first; if the joined, decoded, trimmed result is longer
than 10 characters return it; otherwise try the ASR p/s nesting; otherwise
return the empty string. -/
def parseCaptionXml (xml : String) : String :=
  let textMatches := captionTextMatches xml.data
  let t := trimL (List.intercalate [' '] (textMatches.map decodeTextSegFull))
  if 0 < textMatches.length ∧ 10 < t.length then ⟨t⟩
  else
    let pMatches := captionPMatches xml.data
    if 0 < pMatches.length then
      ⟨trimL (List.intercalate [' ']
        (pMatches.flatMap (fun pm =>
          ((captionSMatches pm).map decodeAsrSeg).filter (· ≠ []))))⟩
    else ""

/-- Spec-side description of the manual-caption result: the decoded, joined,
trimmed concatenation of the manual segments (spec 4.1 step 1). -/
def manualCaptionResult (xml : String) : String :=
  ⟨trimL (List.intercalate [' ']
    ((captionTextMatches xml.data).map decodeTextSegFull))⟩

/-- Code-side description of the ASR result: inner segments decoded with the
three-entity set actually used by the route, empties dropped, joined with
single spaces across all outer groups in document order, trimmed. -/
def asrCaptionResult (xml : String) : String :=
  ⟨trimL (List.intercalate [' ']
    ((captionPMatches xml.data).flatMap (fun pm =>
      ((captionSMatches pm).map decodeAsrSeg).filter (· ≠ []))))⟩

/-- Claim-side description of the ASR result as written in claim C4: each
inner segment decoded with the full five-entity set. -/
def claimC4AsrResult (xml : String) : String :=
  ⟨trimL (List.intercalate [' ']
    ((captionPMatches xml.data).flatMap (fun pm =>
      ((captionSMatches pm).map (fun sm => trimL (decodeTextSegFull sm))).filter
        (· ≠ []))))⟩

/-! ## Timeline builder (buildTimeline in generate-script.ts) -/

/-- ScriptSections from generate-script.ts. -/
structure ScriptSections where
  hook : String
  body : String
  cta : String
deriving DecidableEq, Repr

/-- TimelineClip from generate-script.ts.  Seconds are the non-negative
integers produced by Math.round upstream; frames keep the Math.round
of the exact products. -/
structure TimelineClip where
  id : String
  sectionTag : String
  label : String
  startSec : Nat
  endSec : Nat
  durationSec : Nat
  startFrame : ℤ
  endFrame : ℤ
  durationFrames : ℤ
  text : String
  wordCount : Nat
  footage : String
  overlays : List String
deriving DecidableEq, Repr

/-- EditingTimeline from generate-script.ts. -/
structure EditingTimeline where
  fps : Nat
  totalDurationSec : Nat
  totalFrames : ℤ
  clips : List TimelineClip
deriving DecidableEq, Repr

/-- The durations record handed to buildTimeline by generateScript. -/
structure SectionDurations where
  hookSeconds : Nat
  bodySeconds : Nat
  ctaSeconds : Nat
deriving DecidableEq, Repr

/-- One step of the overlay-marker regex at the current position: an opening
bracket, GFX or STAT (tried in that order), a colon, then at least one
non-bracket character up to the closing bracket.  Returns the formatted
overlay text and the suffix after the whole match. -/
def overlayHere (s : List Char) : Option (String × List Char) :=
  let tryTag (tag : List Char) : Option (String × List Char) :=
    if ('[' :: tag ++ [':']).isPrefixOf s then
      let afterColon := s.drop (tag.length + 2)
      let body := afterColon.takeWhile (· ≠ ']')
      match afterColon.drop body.length with
      | ']' :: rest =>
        if body ≠ [] then
          some (⟨'[' :: tag ++ [']', ' '] ++ trimL body⟩, rest)
        else none
      | _ => none
    else none
  match tryTag ['G', 'F', 'X'] with
  | some r => some r
  | none => tryTag ['S', 'T', 'A', 'T']

/-- matchAll for the overlay-marker regex; a failed candidate resumes one
character later, a successful one after its match.  Fuel exceeds the input
length at every call site. -/
def overlayAux : Nat → List Char → List String
  | 0, _ => []
  | _ + 1, [] => []
  | fuel + 1, c :: rest =>
    match overlayHere (c :: rest) with
    | some (fmt, after) => fmt :: overlayAux fuel after
    | none => overlayAux fuel rest

/-- The overlays collected from one section text (the GFX/STAT markers, in
document order, formatted as in the sources). -/
def extractOverlays (text : String) : List String :=
  overlayAux (text.data.length + 1) text.data

/-- One entry of the sectionDefs array in buildTimeline. -/
structure SectionDef where
  id : String
  sectionTag : String
  label : String
  text : String
  dur : Nat
deriving DecidableEq, Repr

/-- The loop body of buildTimeline: skip empty texts, otherwise emit a clip
at the running cursor; footage is indexed by the number of clips emitted so
far. -/
def buildClipsAux (footage : List String) (fps : Nat) :
    List SectionDef → Nat → List TimelineClip → Nat × List TimelineClip
  | [], cursor, clips => (cursor, clips)
  | d :: rest, cursor, clips =>
    if d.text = "" then buildClipsAux footage fps rest cursor clips
    else
      let startSec := cursor
      let endSec := cursor + d.dur
      let clip : TimelineClip :=
        { id := d.id
          sectionTag := d.sectionTag
          label := d.label
          startSec := startSec
          endSec := endSec
          durationSec := d.dur
          startFrame := jsRound ((startSec * fps : Nat) : ℚ)
          endFrame := jsRound ((endSec * fps : Nat) : ℚ)
          durationFrames := jsRound ((d.dur * fps : Nat) : ℚ)
          text := d.text
          wordCount := wordCount d.text
          footage := footage.getD clips.length ""
          overlays := extractOverlays d.text }
      buildClipsAux footage fps rest endSec (clips ++ [clip])

/-- buildTimeline from generate-script.ts. -/
def buildTimeline (sections : ScriptSections) (durations : SectionDurations)
    (footage : List String) (_graphics : List String) (fps : Nat) :
    EditingTimeline :=
  let sectionDefs : List SectionDef :=
    [ { id := "hook", sectionTag := "hook", label := "HOOK",
        text := sections.hook, dur := durations.hookSeconds },
      { id := "body", sectionTag := "body", label := "BODY",
        text := sections.body, dur := durations.bodySeconds },
      { id := "cta", sectionTag := "cta", label := "CTA",
        text := sections.cta, dur := durations.ctaSeconds } ]
  let result := buildClipsAux footage fps sectionDefs 0 []
  { fps := fps
    totalDurationSec := result.1
    totalFrames := jsRound ((result.1 * fps : Nat) : ℚ)
    clips := result.2 }

/-- The per-section durations generateScript derives before calling
buildTimeline (lines 203-205). -/
def serverDurations (sections : ScriptSections) : SectionDurations :=
  { hookSeconds := sectionSeconds sections.hook
    bodySeconds := sectionSeconds sections.body
    ctaSeconds := sectionSeconds sections.cta }

/-- One entry of the defs array in the client-side editedTimeline memo
(page.tsx); durations are recomputed inside the loop there. -/
structure ClientSectionDef where
  id : String
  sectionTag : String
  label : String
  text : String
deriving DecidableEq, Repr

/-- The loop body of editedTimeline in page.tsx: the same clip construction,
except that durations are recomputed from word counts at 2.8 words per
second and footage is indexed by the section position i, not by the number
of clips emitted. -/
def clientClipsAux (backgroundFootage : List String) (fps : Nat) :
    List (Nat × ClientSectionDef) → Nat → List TimelineClip →
      Nat × List TimelineClip
  | [], cursor, clips => (cursor, clips)
  | (i, d) :: rest, cursor, clips =>
    if d.text = "" then clientClipsAux backgroundFootage fps rest cursor clips
    else
      let words := wordCount d.text
      let dur := (jsRound ((words : ℚ) / (2.8 : ℚ))).toNat
      let clip : TimelineClip :=
        { id := d.id
          sectionTag := d.sectionTag
          label := d.label
          startSec := cursor
          endSec := cursor + dur
          durationSec := dur
          startFrame := jsRound ((cursor * fps : Nat) : ℚ)
          endFrame := jsRound (((cursor + dur) * fps : Nat) : ℚ)
          durationFrames := jsRound ((dur * fps : Nat) : ℚ)
          text := d.text
          wordCount := words
          footage := backgroundFootage.getD i ""
          overlays := extractOverlays d.text }
      clientClipsAux backgroundFootage fps rest (cursor + dur)
        (clips ++ [clip])

/-- editedTimeline from page.tsx, as a pure function of the edited sections,
the footage suggestions of the last server result, and the fps. -/
def clientTimeline (sections : ScriptSections)
    (backgroundFootage : List String) (fps : Nat) : EditingTimeline :=
  let defs : List (Nat × ClientSectionDef) :=
    [ (0, { id := "hook", sectionTag := "hook", label := "HOOK",
            text := sections.hook }),
      (1, { id := "body", sectionTag := "body", label := "BODY",
            text := sections.body }),
      (2, { id := "cta", sectionTag := "cta", label := "CTA",
            text := sections.cta }) ]
  let result := clientClipsAux backgroundFootage fps defs 0 []
  { fps := fps
    totalDurationSec := result.1
    totalFrames := jsRound ((result.1 * fps : Nat) : ℚ)
    clips := result.2 }

/-- Bool check that a clip list is contiguous starting from a given cursor:
each clip starts where the previous one ended. -/
def contiguousFrom (t : Nat) : List TimelineClip → Bool
  | [] => true
  | c :: rest => c.startSec == t && contiguousFrom c.endSec rest

/-! ## Section parsing (parseSections in generate-script.ts)

Each section regex is: the bracketed marker, whitespace up to and including
a newline (the star-quantified whitespace is greedy, so it consumes through
the last newline of the run), a lazy capture, and a lookahead for the next
marker (or for the separator or end of input, for the cta section).  The
whole pattern is case-insensitive and only the first match is used. -/

/-- Whitespace-then-newline after a marker: succeeds when the maximal
whitespace run that follows contains a newline, returning the suffix after
the last newline of that run. -/
def wsNl : List Char → Option (List Char)
  | [] => none
  | c :: rest =>
    if c = '\n' then
      some (match wsNl rest with | some r => r | none => rest)
    else if jsIsSpace c then wsNl rest
    else none

/-- First match of a section regex delimited by a marker lookahead: find the
marker (case-insensitively), require whitespace-then-newline, capture up to
the first occurrence of the close marker; a candidate that fails resumes one
character later. -/
def sectionScan (openM closeM : List Char) : List Char → Option (List Char)
  | [] => none
  | c :: rest =>
    if isPrefixCI openM (c :: rest) then
      match wsNl ((c :: rest).drop openM.length) with
      | some p =>
        match findCIPre closeM p with
        | some cap => some cap
        | none => sectionScan openM closeM rest
      | none => sectionScan openM closeM rest
    else sectionScan openM closeM rest

/-- First match of the cta regex: delimited by a lookahead for the literal
separator or end of input, so the capture runs to the first separator if one
exists, else to the end. -/
def ctaScan (openM : List Char) : List Char → Option (List Char)
  | [] => none
  | c :: rest =>
    if isPrefixCI openM (c :: rest) then
      match wsNl ((c :: rest).drop openM.length) with
      | some p =>
        some (match findCIPre ['-', '-', '-'] p with
              | some cap => cap
              | none => p)
      | none => ctaScan openM rest
    else ctaScan openM rest

/-- The fixed default call-to-action line substituted when the cta marker is
missing. -/
def defaultCta : String :=
  "Stop leaving money on the table. Get the best odds on Novig — link in bio."

/-- parseSections from generate-script.ts. -/
def parseSections (raw : String) : ScriptSections :=
  let hookMatch := sectionScan "[HOOK]".data "[BODY]".data raw.data
  let bodyMatch := sectionScan "[BODY]".data "[CTA]".data raw.data
  let ctaMatch := ctaScan "[CTA]".data raw.data
  { hook := match hookMatch with | some m => ⟨trimL m⟩ | none => ""
    body := match bodyMatch with | some m => ⟨trimL m⟩ | none => ""
    cta := match ctaMatch with | some m => ⟨trimL m⟩ | none => defaultCta }

/-! ## Completion splitting and the JSON sidecar (generate-script.ts) -/

/-- raw.split on the separator regex: a newline, three dashes and an
optional trailing newline (consumed greedily).  Fuel exceeds the input
length at every call site. -/
def splitSepAux : Nat → List Char → List (List Char)
  | 0, s => [s]
  | fuel + 1, s =>
    match findSplit ['\n', '-', '-', '-'] s with
    | none => [s]
    | some (piece, post) =>
      let post2 := match post with
        | '\n' :: t => t
        | t => t
      piece :: splitSepAux fuel post2

/-- The pieces of the raw completion around the separator regex. -/
def splitCompletion (raw : String) : List (List Char) :=
  splitSepAux (raw.data.length + 1) raw.data

/-- JSON values as produced by JSON.parse.  Objects keep their members in
insertion order with later duplicate keys overwriting earlier ones. -/
inductive Json where
  | null : Json
  | bool : Bool → Json
  | num : ℚ → Json
  | str : String → Json
  | arr : List Json → Json
  | obj : List (String × Json) → Json

/-- Insert a member into an object's member list, later duplicate wins. -/
def objSet (kvs : List (String × Json)) (k : String) (v : Json) :
    List (String × Json) :=
  if kvs.any (fun kv => kv.1 = k) then
    kvs.map (fun kv => if kv.1 = k then (k, v) else kv)
  else kvs ++ [(k, v)]

/-- JSON whitespace. -/
def jsonWs (c : Char) : Bool := [' ', '\t', '\n', '\r'].contains c

/-- Value of one hexadecimal digit, on the lowercased character. -/
def hexDigitVal (c : Char) : Option Nat :=
  if c.isDigit then some (c.toNat - 48)
  else
    let m := (lowerChar c).toNat
    if 97 ≤ m && m ≤ 102 then some (m - 87) else none

/-- The single-character string escapes of the JSON grammar. -/
def escChar (c : Char) : Option Char :=
  if c = '"' then some '"'
  else if c = '\\' then some '\\'
  else if c = '/' then some '/'
  else if c = 'b' then some '\x08'
  else if c = 'f' then some '\x0c'
  else if c = 'n' then some '\n'
  else if c = 'r' then some '\r'
  else if c = 't' then some '\t'
  else none

/-- Body of a JSON string after the opening quote: ordinary characters,
escapes, a closing quote; raw control characters are rejected. -/
def parseJsonStr : List Char → Option (List Char × List Char)
  | [] => none
  | '"' :: rest => some ([], rest)
  | '\\' :: e :: rest =>
    if e = 'u' then
      match rest with
      | h1 :: h2 :: h3 :: h4 :: rest2 =>
        match hexDigitVal h1, hexDigitVal h2, hexDigitVal h3, hexDigitVal h4 with
        | some a, some b, some c, some d =>
          (parseJsonStr rest2).map
            (fun r => (Char.ofNat (a * 4096 + b * 256 + c * 16 + d) :: r.1, r.2))
        | _, _, _, _ => none
      | _ => none
    else
      match escChar e with
      | some ch => (parseJsonStr rest).map (fun r => (ch :: r.1, r.2))
      | none => none
  | '\\' :: [] => none
  | c :: rest =>
    if c.toNat < 32 then none
    else (parseJsonStr rest).map (fun r => (c :: r.1, r.2))

/-- A run of decimal digits and the rest. -/
def digitSpan (s : List Char) : List Char × List Char :=
  (s.takeWhile Char.isDigit, s.dropWhile Char.isDigit)

/-- Numeric value of a digit run. -/
def digitsVal (ds : List Char) : Nat :=
  ds.foldl (fun a c => 10 * a + (c.toNat - 48)) 0

/-- A JSON number: optional minus, integer part without leading zeros,
optional fraction, optional exponent. -/
def parseJsonNum (s : List Char) : Option (ℚ × List Char) :=
  let (neg, s1) := match s with
    | '-' :: t => (true, t)
    | t => (false, t)
  let intPart : Option (List Char × List Char) := match s1 with
    | '0' :: t => some (['0'], t)
    | c :: _ =>
      if c.isDigit && c ≠ '0' then
        let (ds, t) := digitSpan s1
        some (ds, t)
      else none
    | [] => none
  match intPart with
  | none => none
  | some (ids, s2) =>
    let fracPart : Option (List Char × List Char) := match s2 with
      | '.' :: t =>
        let (ds, t2) := digitSpan t
        if ds = [] then none else some (ds, t2)
      | t => some ([], t)
    match fracPart with
    | none => none
    | some (fds, s3) =>
      let expPart : Option (ℤ × List Char) := match s3 with
        | c :: t =>
          if c = 'e' || c = 'E' then
            let (esign, t2) : Bool × List Char := match t with
              | '+' :: u => (false, u)
              | '-' :: u => (true, u)
              | u => (false, u)
            let (eds, t3) := digitSpan t2
            if eds = [] then none
            else
              some (if esign then -(digitsVal eds : ℤ) else (digitsVal eds : ℤ),
                t3)
          else some (0, s3)
        | [] => some (0, [])
      match expPart with
      | none => none
      | some (e, s4) =>
        let mant : ℚ := (digitsVal (ids ++ fds) : ℚ) / ((10 : ℚ) ^ fds.length)
        let scaled : ℚ :=
          if 0 ≤ e then mant * (10 : ℚ) ^ e.toNat else mant / (10 : ℚ) ^ (-e).toNat
        some (if neg then -scaled else scaled, s4)

mutual

/-- A JSON value (fuelled recursive descent; the fuel bounds nesting and
always exceeds the input length). -/
def parseJsonValue : Nat → List Char → Option (Json × List Char)
  | 0, _ => none
  | fuel + 1, s =>
    let t := s.dropWhile jsonWs
    if "null".data.isPrefixOf t then some (Json.null, t.drop 4)
    else if "true".data.isPrefixOf t then some (Json.bool true, t.drop 4)
    else if "false".data.isPrefixOf t then some (Json.bool false, t.drop 5)
    else
      match t with
      | '"' :: rest =>
        (parseJsonStr rest).map (fun r => (Json.str ⟨r.1⟩, r.2))
      | '[' :: rest =>
        (match rest.dropWhile jsonWs with
         | ']' :: rest2 => some (Json.arr [], rest2)
         | _ => (parseJsonElems fuel rest).map (fun r => (Json.arr r.1, r.2)))
      | '\x7b' :: rest =>
        (match rest.dropWhile jsonWs with
         | '\x7d' :: rest2 => some (Json.obj [], rest2)
         | _ =>
           (parseJsonMembers fuel [] rest).map (fun r => (Json.obj r.1, r.2)))
      | u => (parseJsonNum u).map (fun r => (Json.num r.1, r.2))

/-- Comma-separated array elements up to the closing bracket. -/
def parseJsonElems : Nat → List Char → Option (List Json × List Char)
  | 0, _ => none
  | fuel + 1, s =>
    match parseJsonValue fuel s with
    | none => none
    | some (v, rest) =>
      match rest.dropWhile jsonWs with
      | ',' :: rest2 =>
        (parseJsonElems fuel rest2).map (fun r => (v :: r.1, r.2))
      | ']' :: rest2 => some ([v], rest2)
      | _ => none

/-- Comma-separated object members up to the closing brace. -/
def parseJsonMembers : Nat → List (String × Json) → List Char →
    Option (List (String × Json) × List Char)
  | 0, _, _ => none
  | fuel + 1, acc, s =>
    match s.dropWhile jsonWs with
    | '"' :: rest =>
      match parseJsonStr rest with
      | none => none
      | some (key, rest2) =>
        match rest2.dropWhile jsonWs with
        | ':' :: rest3 =>
          match parseJsonValue fuel rest3 with
          | none => none
          | some (v, rest4) =>
            let acc2 := objSet acc ⟨key⟩ v
            match rest4.dropWhile jsonWs with
            | ',' :: rest5 => parseJsonMembers fuel acc2 rest5
            | '\x7d' :: rest5 => some (acc2, rest5)
            | _ => none
        | _ => none
    | _ => none

end

/-- JSON.parse: a single value with only trailing whitespace allowed. -/
def jsonParse (s : String) : Option Json :=
  match parseJsonValue (s.data.length + 1) s.data with
  | some (v, rest) => if rest.dropWhile jsonWs = [] then some v else none
  | none => none

/-- JavaScript truthiness on parsed JSON values. -/
def jsTruthy : Json → Bool
  | Json.null => false
  | Json.bool b => b
  | Json.num q => q ≠ 0
  | Json.str s => s ≠ ""
  | Json.arr _ => true
  | Json.obj _ => true

/-- Property access parsed.key: a member lookup on objects, undefined (none)
on every other non-null value. -/
def jsGetField : Json → String → Option Json
  | Json.obj kvs, k => (kvs.find? (fun kv => kv.1 = k)).map (fun kv => kv.2)
  | _, _ => none

/-- x || dflt on an optional field value. -/
def jsOrElse (v : Option Json) (dflt : Json) : Json :=
  match v with
  | some j => if jsTruthy j then j else dflt
  | none => dflt

/-- The three sidecar variables of generateScript (footage, notes,
hookAlts).  They hold whatever JavaScript values the assignments produce,
hence Json. -/
structure Sidecar where
  footage : Json
  notes : Json
  hookAlts : Json

/-- The catch-branch fallback of generateScript: fixed footage and notes,
hookAlts left at its initial empty value. -/
def fallbackSidecar : Sidecar :=
  { footage := Json.arr [Json.str "Game highlights relevant to picks mentioned"]
    notes := Json.arr [Json.str "Use quick cuts every 3-4s",
                       Json.str "Add energetic background music"]
    hookAlts := Json.arr [] }

/-- The initial values of the three sidecar variables. -/
def emptySidecar : Sidecar :=
  { footage := Json.arr [], notes := Json.arr [], hookAlts := Json.arr [] }

/-- The sidecar block of generateScript (lines 184-198): if the piece after
the separator exists and is non-empty, JSON.parse its trimmed text; on
success read the three properties with empty-array defaults (a null parse
result makes the property access throw, landing in the catch branch); on
parse failure use the fixed fallback; otherwise keep the initial empties. -/
def parseSidecar (raw : String) : Sidecar :=
  match (splitCompletion raw)[1]? with
  | some p =>
    if p ≠ [] then
      match jsonParse ⟨trimL p⟩ with
      | some Json.null => fallbackSidecar
      | some parsed =>
        { footage := jsOrElse (jsGetField parsed "footage") (Json.arr [])
          notes := jsOrElse (jsGetField parsed "notes") (Json.arr [])
          hookAlts := jsOrElse (jsGetField parsed "hookAlts") (Json.arr []) }
      | none => fallbackSidecar
    else emptySidecar
  | none => emptySidecar

/-- Whether the raw completion contains a separator match at all. -/
def hasSeparator (raw : String) : Bool :=
  containsLit ['\n', '-', '-', '-'] raw.data

/-- jsonSplit[0], the part of the completion handed to parseSections. -/
def scriptPart (raw : String) : String :=
  ⟨(splitCompletion raw).getD 0 []⟩

/-! ## Transcript source chain (src/lib/transcript.ts)

The chain orchestrates network sources.  Each source function is embedded
over an environment that records the outcome the network would deliver in a
given run (the oracle of that source), while the chain logic itself -- the
priority order, the validation thresholds, the timeout gate and the
short-circuiting -- is translated from the code.  The returned trace lists
the acquisition sources actually attempted, in order; the metadata lookup is
not an acquisition source. -/

/-- Platforms detectPlatform can report. -/
inductive Platform where
  | youtube : Platform
  | instagram : Platform
deriving DecidableEq, Repr

/-- VideoMeta from transcript.ts (platform kept as its literal string). -/
structure VideoMeta where
  videoId : String
  title : String
  channel : String
  platform : String
deriving DecidableEq, Repr

/-- The result record of fetchTranscript. -/
structure TranscriptResult where
  transcript : String
  meta : VideoMeta
deriving DecidableEq, Repr

/-- The three acquisition sources of the YouTube chain. -/
inductive SourceTag where
  | captions : SourceTag
  | gemini : SourceTag
  | invidious : SourceTag
deriving DecidableEq, Repr

/-- Outcomes a single run's network would deliver to each source, plus the
wall-clock the Gemini call would take.  captionItems none models a throw in
the caption library; geminiText none models a missing or failed Gemini
response (its internal validation is part of the model below);
invidiousText is the aggregate outcome of the proxy-instance loop of
tryInvidiousCaptions. -/
structure ChainEnv where
  captionItems : Option (List String)
  googleAiKey : Bool
  geminiText : Option String
  geminiMs : Nat
  invidiousText : Option String
  oembedTitle : String
  oembedChannel : String

/-- detectPlatform from transcript.ts: case-insensitive substring tests. -/
def detectPlatform (url : String) : Option Platform :=
  if containsCI "youtube.com".data url.data || containsCI "youtu.be".data url.data
  then some Platform.youtube
  else if containsCI "instagram.com".data url.data then some Platform.instagram
  else none

/-- The video-id character class of the extraction regexes. -/
def isIdChar (c : Char) : Bool := c.isAlphanum || c = '_' || c = '-'

/-- Exactly eleven id characters at the front. -/
def take11Id (s : List Char) : Option (List Char) :=
  let t := s.take 11
  if t.length = 11 && t.all isIdChar then some t else none

/-- Leftmost position where one of the literal prefixes (tried in order) is
followed by eleven id characters; scans one character at a time like the
regex engine. -/
def idScan (pfxs : List (List Char)) : List Char → Option (List Char)
  | [] => none
  | c :: rest =>
    match pfxs.findSome? (fun p =>
      if p.isPrefixOf (c :: rest) then take11Id ((c :: rest).drop p.length)
      else none) with
    | some found => some found
    | none => idScan pfxs rest

/-- extractYouTubeVideoId from transcript.ts: the three patterns in order
(the first is an alternation of the watch, short-link and shorts forms). -/
def extractYouTubeVideoId (url : String) : Option String :=
  match idScan ["youtube.com/watch?v=".data, "youtu.be/".data,
                "youtube.com/shorts/".data] url.data with
  | some found => some ⟨found⟩
  | none =>
    match idScan ["youtube.com/embed/".data] url.data with
    | some found => some ⟨found⟩
    | none =>
      match idScan ["youtube.com/live/".data] url.data with
      | some found => some ⟨found⟩
      | none => none

/-- extractIgUsername from transcript.ts: capture the run after the literal
host prefix up to a slash or question mark; an empty capture makes the
regex retry at the next position. -/
def igUserScan : List Char → Option (List Char)
  | [] => none
  | c :: rest =>
    if "instagram.com/".data.isPrefixOf (c :: rest) then
      let cap := ((c :: rest).drop 14).takeWhile (fun x => x ≠ '/' && x ≠ '?')
      if cap ≠ [] then some cap else igUserScan rest
    else igUserScan rest

/-- extractIgUsername from transcript.ts. -/
def extractIgUsername (url : String) : String :=
  match igUserScan url.data with
  | some cap => "@" ++ (⟨cap⟩ : String)
  | none => "Instagram"

/-- The post-id regex of the Instagram manual branch: a slash, then p, reel
or reels (tried in that order), a slash, and at least one id character. -/
def igPostScan : List Char → Option (List Char)
  | [] => none
  | c :: rest =>
    match ["/p/".data, "/reel/".data, "/reels/".data].findSome? (fun p =>
      if p.isPrefixOf (c :: rest) then
        let cap := ((c :: rest).drop p.length).takeWhile isIdChar
        if cap ≠ [] then some cap else none
      else none) with
    | some cap => some cap
    | none => igPostScan rest

/-- tryYouTubeCaptions from transcript.ts over the run's oracle: join the
fragment texts with spaces and validate the trimmed length. -/
def tryYouTubeCaptions (env : ChainEnv) : Option String :=
  match env.captionItems with
  | none => none
  | some items =>
    if items.length > 0 then
      let text := String.intercalate " " items
      if (jsTrim text).length > 10 then some text else none
    else none

/-- tryGeminiNativeTranscription from transcript.ts over the run's oracle:
requires the configured key, trims the candidate text and validates its
length; every failure path returns none. -/
def tryGeminiNativeTranscription (env : ChainEnv) : Option String :=
  if !env.googleAiKey then none
  else
    match env.geminiText with
    | none => none
    | some t0 =>
      let t := jsTrim t0
      if t.length > 10 then some t else none

/-- The withTimeout(-, 50000) wrapper with its catch: the Gemini result is
delivered only when the call finishes inside the 50000 ms window, otherwise
the timeout rejection is caught and yields null. -/
def geminiWithTimeout (env : ChainEnv) : Option String :=
  if env.geminiMs < 50000 then tryGeminiNativeTranscription env else none

/-- tryInvidiousCaptions from transcript.ts over the run's oracle. -/
def tryInvidiousCaptions (env : ChainEnv) : Option String :=
  env.invidiousText

/-- fetchYouTubeMeta over the run's oracle (its internal fallback strings
are folded into the oracle values). -/
def fetchYouTubeMeta (env : ChainEnv) : String × String :=
  (env.oembedTitle, env.oembedChannel)

/-- The YouTube acquisition chain of fetchTranscript (lines 267-310):
captions, then the timeout-gated Gemini call, then Invidious, stopping at
the first usable result; the error message on exhaustion is the one thrown
by the source. -/
def youtubeChain (videoId : String) (env : ChainEnv) :
    Except String TranscriptResult × List SourceTag :=
  let m := fetchYouTubeMeta env
  let meta : VideoMeta :=
    { videoId := videoId, title := m.1, channel := m.2, platform := "youtube" }
  match tryYouTubeCaptions env with
  | some captions =>
    (Except.ok { transcript := captions, meta := meta }, [SourceTag.captions])
  | none =>
    match geminiWithTimeout env with
    | some t =>
      (Except.ok { transcript := t, meta := meta },
       [SourceTag.captions, SourceTag.gemini])
    | none =>
      match tryInvidiousCaptions env with
      | some t =>
        (Except.ok { transcript := t, meta := meta },
         [SourceTag.captions, SourceTag.gemini, SourceTag.invidious])
      | none =>
        (Except.error "Could not transcribe this video. Paste the transcript manually, or check that GOOGLE_AI_KEY is configured.",
         [SourceTag.captions, SourceTag.gemini, SourceTag.invidious])

/-- The acquisition phase of fetchTranscript (everything after the manual
branch). -/
def acquisitionPhase (url : String) (env : ChainEnv) :
    Except String TranscriptResult × List SourceTag :=
  match detectPlatform url with
  | some Platform.youtube =>
    match extractYouTubeVideoId url with
    | none => (Except.error "Invalid YouTube URL.", [])
    | some videoId => youtubeChain videoId env
  | some Platform.instagram =>
    (Except.error "Instagram videos require a manual transcript. Paste what they say in the box below.", [])
  | none =>
    (Except.error "Unsupported URL. Provide a YouTube or Instagram link.", [])

/-- The manual-transcript branch of fetchTranscript: per detected platform,
build the metadata (a lightweight oembed lookup for YouTube) and return the
trimmed manual text. -/
def manualBranch (url : String) (env : ChainEnv) (m : String) :
    TranscriptResult :=
  match detectPlatform url with
  | some Platform.youtube =>
    let videoId := (extractYouTubeVideoId url).getD "unknown"
    let md := fetchYouTubeMeta env
    { transcript := jsTrim m,
      meta := { videoId := videoId, title := md.1, channel := md.2,
                platform := "youtube" } }
  | some Platform.instagram =>
    let videoId := (igPostScan url.data).map (fun c => (⟨c⟩ : String))
    { transcript := jsTrim m,
      meta := { videoId := videoId.getD "ig_unknown",
                title := "Instagram Video",
                channel := extractIgUsername url,
                platform := "instagram" } }
  | none =>
    { transcript := jsTrim m,
      meta := { videoId := "manual", title := "Manual Input",
                channel := "Direct Paste", platform := "manual" } }

/-- fetchTranscript from transcript.ts: a non-blank manual transcript wins
unconditionally and attempts no acquisition source; otherwise the platform
dispatch runs the chain. -/
def fetchTranscript (url : String) (manualTranscript : Option String)
    (env : ChainEnv) : Except String TranscriptResult × List SourceTag :=
  match manualTranscript with
  | some m =>
    if jsTrim m ≠ "" then (Except.ok (manualBranch url env m), [])
    else acquisitionPhase url env
  | none => acquisitionPhase url env

/-! ## Helper lemmas -/

theorem isPrefixCI_append (p : List Char) :
    ∀ u v : List Char, isPrefixCI p u = true → isPrefixCI p (u ++ v) = true := by
  induction p with
  | nil => intro u v _; simp [isPrefixCI]
  | cons x xs ih =>
    intro u v h
    cases u with
    | nil => simp [isPrefixCI] at h
    | cons c cs =>
      simp only [isPrefixCI, Bool.and_eq_true] at h
      simp only [List.cons_append, isPrefixCI, Bool.and_eq_true]
      exact ⟨h.1, ih cs v h.2⟩

theorem findCI_nil_pat (s : List Char) : (findCI [] s).isSome = true := by
  cases s <;> simp [findCI, isPrefixCI]

theorem findCI_isSome_append (pat : List Char) :
    ∀ u v : List Char, (findCI pat u).isSome = true →
      (findCI pat (u ++ v)).isSome = true := by
  intro u
  induction u with
  | nil =>
    intro v h
    simp only [findCI] at h
    by_cases hp : pat.isEmpty
    · have : pat = [] := by cases pat <;> simp_all [List.isEmpty]
      subst this
      simpa using findCI_nil_pat v
    · simp [hp] at h
  | cons c cs ih =>
    intro v h
    simp only [List.cons_append, findCI] at h ⊢
    by_cases hpre : isPrefixCI pat (c :: List.append cs v) = true
    · rw [if_pos hpre]; rfl
    · rw [if_neg hpre]
      have hpre0 : isPrefixCI pat (c :: cs) = false := by
        by_contra hx
        exact hpre (by
          have h2 := isPrefixCI_append pat (c :: cs) v (by simpa using hx)
          exact h2)
      rw [hpre0] at h
      simp only [Bool.false_eq_true, if_false] at h
      exact ih v h

theorem containsCI_false_of_append (pat u v : List Char)
    (h : containsCI pat (u ++ v) = false) : containsCI pat u = false := by
  cases hu : containsCI pat u
  · rfl
  · exact absurd (findCI_isSome_append pat u v hu) (by simpa [containsCI] using h)

theorem containsCI_false_cons (pat : List Char) (c : Char) (rest : List Char)
    (h : containsCI pat (c :: rest) = false) :
    isPrefixCI pat (c :: rest) = false ∧ containsCI pat rest = false := by
  by_cases hpre : isPrefixCI pat (c :: rest) = true
  · simp [containsCI, findCI, hpre] at h
  · refine ⟨by simpa using hpre, ?_⟩
    simpa [containsCI, findCI, hpre] using h

theorem findSplit_decomp (pat : List Char) :
    ∀ s pre post : List Char, findSplit pat s = some (pre, post) →
      s = pre ++ (pat ++ post) := by
  intro s
  induction s with
  | nil =>
    intro pre post h
    simp only [findSplit] at h
    by_cases hp : pat.isEmpty
    · have hpat : pat = [] := by cases pat <;> simp_all [List.isEmpty]
      rw [if_pos hp] at h
      cases h
      simp [hpat]
    · rw [if_neg hp] at h; cases h
  | cons c cs ih =>
    intro pre post h
    simp only [findSplit] at h
    by_cases hpre : pat.isPrefixOf (c :: cs) = true
    · rw [if_pos hpre] at h
      obtain ⟨t, ht⟩ := List.isPrefixOf_iff_prefix.mp hpre
      cases h
      have hdrop : List.drop pat.length (c :: cs) = t := by
        rw [← ht]; exact List.drop_left pat t
      rw [hdrop, List.nil_append, ht]
    · rw [if_neg hpre] at h
      cases hfs : findSplit pat cs with
      | none =>
        rw [hfs] at h
        have h2 : (none : Option (List Char × List Char)) = some (pre, post) := h
        cases h2
      | some pr =>
        rw [hfs] at h
        have h2 : some (c :: pr.1, pr.2) = some (pre, post) := h
        cases h2
        have hrec := ih pr.1 pr.2 (by rw [hfs])
        simp [hrec]

theorem ctaScan_none (openM : List Char) :
    ∀ s : List Char, containsCI openM s = false → ctaScan openM s = none := by
  intro s
  induction s with
  | nil => intro _; rfl
  | cons c rest ih =>
    intro h
    obtain ⟨h1, h2⟩ := containsCI_false_cons openM c rest h
    simp only [ctaScan]
    rw [if_neg (by simp [h1])]
    exact ih h2

theorem scriptPart_prefix (raw : String) :
    ∃ v : List Char, raw.data = (scriptPart raw).data ++ v := by
  have hsp : (scriptPart raw).data
      = (splitSepAux (raw.data.length + 1) raw.data).getD 0 [] := rfl
  rw [hsp]
  cases hfs : findSplit ['\n', '-', '-', '-'] raw.data with
  | none => exact ⟨[], by simp [splitSepAux, hfs]⟩
  | some pr =>
    refine ⟨['\n', '-', '-', '-'] ++ pr.2, ?_⟩
    have hd := findSplit_decomp _ raw.data pr.1 pr.2 (by rw [hfs])
    simp only [splitSepAux, hfs, List.getD_cons_zero]
    exact hd

/-! ## Claim theorems -/

/-- Claim C1: for a YouTube URL with no manual transcript, the sources are
tried in priority order and the chain stops at the first usable result: in
every run where the native-captions source fails and the timeout-gated
Gemini transcription succeeds within its 50000 ms window, fetchTranscript
returns the Gemini transcript, the attempted sources are exactly captions
then gemini, and the Invidious proxy source is never invoked. -/
theorem claim_C1_chain_priority (url : String) (env : ChainEnv) (vid t : String)
    (hplat : detectPlatform url = some Platform.youtube)
    (hvid : extractYouTubeVideoId url = some vid)
    (hcap : tryYouTubeCaptions env = none)
    (hms : env.geminiMs < 50000)
    (hgem : tryGeminiNativeTranscription env = some t) :
    (fetchTranscript url none env).1
        = Except.ok ⟨t, ⟨vid, env.oembedTitle, env.oembedChannel, "youtube"⟩⟩ ∧
      (fetchTranscript url none env).2
        = [SourceTag.captions, SourceTag.gemini] ∧
      SourceTag.invidious ∉ (fetchTranscript url none env).2 := by
  have hchain : fetchTranscript url none env
      = (Except.ok ⟨t, ⟨vid, env.oembedTitle, env.oembedChannel, "youtube"⟩⟩,
         [SourceTag.captions, SourceTag.gemini]) := by
    simp [fetchTranscript, acquisitionPhase, hplat, hvid, youtubeChain, hcap,
          geminiWithTimeout, hms, hgem, fetchYouTubeMeta]
  refine ⟨by rw [hchain], by rw [hchain], by rw [hchain]; simp⟩

/-- Witness for claim C1 at a concrete URL and run. -/
theorem claim_C1_chain_priority_witness :
    detectPlatform "https://www.youtube.com/watch?v=abcdefghijk"
        = some Platform.youtube ∧
      extractYouTubeVideoId "https://www.youtube.com/watch?v=abcdefghijk"
        = some "abcdefghijk" ∧
      tryYouTubeCaptions
          { captionItems := none, googleAiKey := true,
            geminiText := some " a transcript from gemini ", geminiMs := 1000,
            invidiousText := some "proxy result", oembedTitle := "T",
            oembedChannel := "C" } = none ∧
      (1000 : Nat) < 50000 ∧
      tryGeminiNativeTranscription
          { captionItems := none, googleAiKey := true,
            geminiText := some " a transcript from gemini ", geminiMs := 1000,
            invidiousText := some "proxy result", oembedTitle := "T",
            oembedChannel := "C" } = some "a transcript from gemini" ∧
      ((fetchTranscript "https://www.youtube.com/watch?v=abcdefghijk" none
            { captionItems := none, googleAiKey := true,
              geminiText := some " a transcript from gemini ", geminiMs := 1000,
              invidiousText := some "proxy result", oembedTitle := "T",
              oembedChannel := "C" }).1
          = Except.ok ⟨"a transcript from gemini",
              ⟨"abcdefghijk", "T", "C", "youtube"⟩⟩ ∧
        (fetchTranscript "https://www.youtube.com/watch?v=abcdefghijk" none
            { captionItems := none, googleAiKey := true,
              geminiText := some " a transcript from gemini ", geminiMs := 1000,
              invidiousText := some "proxy result", oembedTitle := "T",
              oembedChannel := "C" }).2
          = [SourceTag.captions, SourceTag.gemini] ∧
        SourceTag.invidious ∉
          (fetchTranscript "https://www.youtube.com/watch?v=abcdefghijk" none
            { captionItems := none, googleAiKey := true,
              geminiText := some " a transcript from gemini ", geminiMs := 1000,
              invidiousText := some "proxy result", oembedTitle := "T",
              oembedChannel := "C" }).2) :=
  ⟨rfl, rfl, rfl, by decide, rfl,
   claim_C1_chain_priority _ _ _ _ rfl rfl rfl (by decide) rfl⟩

/-- The transcript delivered by the manual branch is always the trimmed
manual input, whatever platform the URL matches. -/
theorem manualBranch_transcript (url : String) (env : ChainEnv) (m : String) :
    (manualBranch url env m).transcript = jsTrim m := by
  unfold manualBranch
  cases detectPlatform url with
  | none => rfl
  | some p => cases p <;> rfl

/-- Claim C2: whenever a non-blank manual transcript is supplied, no
acquisition source is attempted (the attempted-source trace is empty; only
the metadata lookup may run inside the manual branch) and the returned
transcript is exactly the trimmed manual input. -/
theorem claim_C2_manual_override (url m : String) (env : ChainEnv)
    (h : jsTrim m ≠ "") :
    (fetchTranscript url (some m) env).2 = [] ∧
      (fetchTranscript url (some m) env).1
        = Except.ok (manualBranch url env m) ∧
      (manualBranch url env m).transcript = jsTrim m := by
  refine ⟨?_, ?_, manualBranch_transcript url env m⟩ <;>
    simp [fetchTranscript, h]

/-- Witness for claim C2 at a concrete URL, manual input and run. -/
theorem claim_C2_manual_override_witness :
    jsTrim "  my manual transcript " ≠ "" ∧
      ((fetchTranscript "https://www.youtube.com/watch?v=abcdefghijk"
            (some "  my manual transcript ")
            { captionItems := none, googleAiKey := true,
              geminiText := some "g", geminiMs := 0,
              invidiousText := none, oembedTitle := "T",
              oembedChannel := "C" }).2 = [] ∧
        (fetchTranscript "https://www.youtube.com/watch?v=abcdefghijk"
            (some "  my manual transcript ")
            { captionItems := none, googleAiKey := true,
              geminiText := some "g", geminiMs := 0,
              invidiousText := none, oembedTitle := "T",
              oembedChannel := "C" }).1
          = Except.ok (manualBranch
              "https://www.youtube.com/watch?v=abcdefghijk"
              { captionItems := none, googleAiKey := true,
                geminiText := some "g", geminiMs := 0,
                invidiousText := none, oembedTitle := "T",
                oembedChannel := "C" } "  my manual transcript ") ∧
        (manualBranch "https://www.youtube.com/watch?v=abcdefghijk"
            { captionItems := none, googleAiKey := true,
              geminiText := some "g", geminiMs := 0,
              invidiousText := none, oembedTitle := "T",
              oembedChannel := "C" } "  my manual transcript ").transcript
          = jsTrim "  my manual transcript ") :=
  ⟨by decide,
   claim_C2_manual_override _ _ _ (by decide)⟩

/-- Claim C8: when the cta marker does not occur anywhere in the raw model
completion (case-insensitively, as the parsing regex is case-insensitive),
section parsing still succeeds and substitutes the fixed default
call-to-action line for the cta section. -/
theorem claim_C8_missing_cta (raw : String)
    (h : containsCI "[CTA]".data raw.data = false) :
    (parseSections (scriptPart raw)).cta = defaultCta := by
  obtain ⟨v, hv⟩ := scriptPart_prefix raw
  have h2 : containsCI "[CTA]".data (scriptPart raw).data = false := by
    refine containsCI_false_of_append _ _ v ?_
    rw [← hv]; exact h
  have h3 : ctaScan "[CTA]".data (scriptPart raw).data = none :=
    ctaScan_none _ _ h2
  simp [parseSections, h3]

/-- Witness for claim C8 at a concrete completion with no cta marker. -/
theorem claim_C8_missing_cta_witness :
    containsCI "[CTA]".data "[HOOK]\nBig bold hook\n\n[BODY]\nPicks here\n".data
        = false ∧
      (parseSections
          (scriptPart "[HOOK]\nBig bold hook\n\n[BODY]\nPicks here\n")).cta
        = defaultCta :=
  ⟨by decide, claim_C8_missing_cta _ (by decide)⟩

/-- Counterexample to claim C9: when the completion ends right after the
separator, the part after the separator is the empty string.  The empty
string fails to parse as JSON, yet the fallback is not applied (the empty
piece is falsy, so the parse block is skipped): all three sidecar fields
come back empty instead of the claimed fallback values. -/
theorem claim_C9_counterexample :
    (splitCompletion "x\n---\n")[1]? = some [] ∧
      jsonParse ⟨trimL []⟩ = none ∧
      parseSidecar "x\n---\n" = emptySidecar ∧
      parseSidecar "x\n---\n" ≠ fallbackSidecar := by
  refine ⟨by decide, rfl, rfl, fun h => ?_⟩
  have hf : Json.arr [] = fallbackSidecar.footage := congrArg Sidecar.footage h
  simp [fallbackSidecar] at hf

/-- Claim C9 as amended: when the piece of the completion after the
separator exists, is non-empty, and its trimmed text fails to parse as
JSON, script generation does not fail: the sidecar falls back to the fixed
footage suggestion list and the fixed generic production notes, and the
alternative hooks stay empty.  (When the piece is empty the parse is
skipped and all three fields stay empty instead.) -/
theorem claim_C9_json_fallback (raw : String) (p : List Char)
    (hp : (splitCompletion raw)[1]? = some p)
    (hne : p ≠ [])
    (hjson : jsonParse ⟨trimL p⟩ = none) :
    parseSidecar raw = fallbackSidecar ∧
      fallbackSidecar.footage
        = Json.arr [Json.str "Game highlights relevant to picks mentioned"] ∧
      fallbackSidecar.notes
        = Json.arr [Json.str "Use quick cuts every 3-4s",
                    Json.str "Add energetic background music"] ∧
      fallbackSidecar.hookAlts = Json.arr [] := by
  refine ⟨?_, rfl, rfl, rfl⟩
  simp [parseSidecar, hp, hne, hjson]

/-- Witness for claim C9 at the spec's example sidecar text. -/
theorem claim_C9_json_fallback_witness :
    (splitCompletion "script stuff\n---\nnot valid json")[1]?
        = some "not valid json".data ∧
      "not valid json".data ≠ [] ∧
      jsonParse ⟨trimL "not valid json".data⟩ = none ∧
      parseSidecar "script stuff\n---\nnot valid json" = fallbackSidecar :=
  ⟨by decide, by decide, rfl,
   (claim_C9_json_fallback "script stuff\n---\nnot valid json"
      "not valid json".data (by decide) (by decide) rfl).1⟩

/-- Claim C10: when the completion contains no separator match at all, the
parse-failure fallback is not applied: footage, notes and alternative hooks
are all returned as their initial empty lists. -/
theorem claim_C10_no_separator (raw : String)
    (h : hasSeparator raw = false) :
    parseSidecar raw = emptySidecar ∧
      emptySidecar.footage = Json.arr [] ∧
      emptySidecar.notes = Json.arr [] ∧
      emptySidecar.hookAlts = Json.arr [] := by
  refine ⟨?_, rfl, rfl, rfl⟩
  have hs : findSplit ['\n', '-', '-', '-'] raw.data = none := by
    cases hx : findSplit ['\n', '-', '-', '-'] raw.data with
    | none => rfl
    | some pr =>
      rw [hasSeparator, containsLit, hx] at h
      simp at h
  simp [parseSidecar, splitCompletion, splitSepAux, hs]

/-- Witness for claim C10 at a concrete completion without separator. -/
theorem claim_C10_no_separator_witness :
    hasSeparator "[HOOK]\nA hook\n\n[BODY]\nBody\n\n[CTA]\nGo\n" = false ∧
      parseSidecar "[HOOK]\nA hook\n\n[BODY]\nBody\n\n[CTA]\nGo\n"
        = emptySidecar :=
  ⟨by decide, (claim_C10_no_separator _ (by decide)).1⟩

/-- Counterexample to claim C3: a document containing both formats whose
manual-caption result is 10 characters or shorter.  The parser falls
through to the ASR branch and returns the ASR result, not the manual one. -/
theorem claim_C3_counterexample :
    captionTextMatches "<text>hi</text><p x><s>hello</s><s>world there</s></p>".data
        ≠ [] ∧
      captionPMatches "<text>hi</text><p x><s>hello</s><s>world there</s></p>".data
        ≠ [] ∧
      manualCaptionResult "<text>hi</text><p x><s>hello</s><s>world there</s></p>"
        = "hi" ∧
      asrCaptionResult "<text>hi</text><p x><s>hello</s><s>world there</s></p>"
        = "hello world there" ∧
      parseCaptionXml "<text>hi</text><p x><s>hello</s><s>world there</s></p>"
        = "hello world there" ∧
      parseCaptionXml "<text>hi</text><p x><s>hello</s><s>world there</s></p>"
        ≠ manualCaptionResult
            "<text>hi</text><p x><s>hello</s><s>world there</s></p>" := by
  refine ⟨by decide, by decide, by decide, by decide, by decide, by decide⟩

/-- Claim C3 as amended: when both the manual-caption format and the ASR
format are present and the manual-caption result is longer than 10
characters, the parser returns the manual result, never the ASR one. -/
theorem claim_C3_amended (xml : String)
    (hmanual : captionTextMatches xml.data ≠ [])
    (_hasr : captionPMatches xml.data ≠ [])
    (hlen : 10 < (manualCaptionResult xml).length) :
    parseCaptionXml xml = manualCaptionResult xml := by
  have hlen2 : 10 <
      (trimL (List.intercalate [' ']
        ((captionTextMatches xml.data).map decodeTextSegFull))).length := hlen
  rw [parseCaptionXml, manualCaptionResult]
  rw [if_pos ⟨List.length_pos.mpr hmanual, hlen2⟩]

/-- Witness for the amended claim C3 at a document holding both formats
with a long manual result. -/
theorem claim_C3_amended_witness :
    captionTextMatches "<text>hello there world</text><p x><s>asr words</s></p>".data
        ≠ [] ∧
      captionPMatches "<text>hello there world</text><p x><s>asr words</s></p>".data
        ≠ [] ∧
      10 < (manualCaptionResult
        "<text>hello there world</text><p x><s>asr words</s></p>").length ∧
      parseCaptionXml "<text>hello there world</text><p x><s>asr words</s></p>"
        = manualCaptionResult
            "<text>hello there world</text><p x><s>asr words</s></p>" :=
  ⟨by decide, by decide, by decide,
   claim_C3_amended _ (by decide) (by decide) (by decide)⟩

/-- Counterexample to claim C4: the ASR branch decodes only the amp,
apostrophe and quote entities, not the less-than and greater-than entities
the claim lists.  On an inner segment containing the less-than entity the
parser output differs from the claim's five-entity decode. -/
theorem claim_C4_counterexample :
    captionTextMatches "<p x><s>a&lt;b</s></p>".data = [] ∧
      captionPMatches "<p x><s>a&lt;b</s></p>".data ≠ [] ∧
      parseCaptionXml "<p x><s>a&lt;b</s></p>" = "a&lt;b" ∧
      claimC4AsrResult "<p x><s>a&lt;b</s></p>" = "a<b" ∧
      parseCaptionXml "<p x><s>a&lt;b</s></p>"
        ≠ claimC4AsrResult "<p x><s>a&lt;b</s></p>" := by
  refine ⟨by decide, by decide, by decide, by decide, by decide⟩

/-- Claim C4 as amended: for a document with no manual-caption match and at
least one ASR group, the parser output is the concatenation of the inner
segments across all outer groups in document order, joined with single
spaces and trimmed, empty inner segments dropped, where each inner segment
is decoded with the amp, apostrophe and quote entities only (newlines
collapsed to spaces, segment trimmed). -/
theorem claim_C4_amended (xml : String)
    (hmanual : captionTextMatches xml.data = [])
    (hasr : captionPMatches xml.data ≠ []) :
    parseCaptionXml xml = asrCaptionResult xml := by
  rw [parseCaptionXml, asrCaptionResult]
  rw [if_neg (by simp [hmanual])]
  rw [if_pos (List.length_pos.mpr hasr)]

/-- Witness for the amended claim C4 at an ASR-only document. -/
theorem claim_C4_amended_witness :
    captionTextMatches "<p t=\"0\"><s>hey</s><s> there </s></p><p t=\"1\"><s>people</s></p>".data
        = [] ∧
      captionPMatches "<p t=\"0\"><s>hey</s><s> there </s></p><p t=\"1\"><s>people</s></p>".data
        ≠ [] ∧
      parseCaptionXml "<p t=\"0\"><s>hey</s><s> there </s></p><p t=\"1\"><s>people</s></p>"
        = asrCaptionResult "<p t=\"0\"><s>hey</s><s> there </s></p><p t=\"1\"><s>people</s></p>" ∧
      asrCaptionResult "<p t=\"0\"><s>hey</s><s> there </s></p><p t=\"1\"><s>people</s></p>"
        = "hey there people" :=
  ⟨by decide, by decide, claim_C4_amended _ (by decide) (by decide), by decide⟩

/-- Claim C5: structural invariants of the timeline builder, for every
input (sections, non-negative integer durations, footage list, fps).  The
emitted clips are exactly the non-empty sections in hook, body, cta order
with their given durations; every clip satisfies endSec - startSec =
durationSec with frames rounded independently from the exact second
bounds; clips are contiguous from 0 with no gaps or overlaps; the total
duration is the sum of the emitted clip durations and equals the last
clip's endSec when a clip exists. -/
theorem claim_C5_timeline_invariants (sections : ScriptSections)
    (d : SectionDurations) (footage graphics : List String) (fps : Nat) :
    (buildTimeline sections d footage graphics fps).clips.map
        (fun c => (c.id, c.text, c.durationSec))
      = ([("hook", sections.hook, d.hookSeconds),
          ("body", sections.body, d.bodySeconds),
          ("cta", sections.cta, d.ctaSeconds)].filter
            (fun e => e.2.1 ≠ "")) ∧
    (buildTimeline sections d footage graphics fps).clips.all
        (fun c =>
          (c.endSec - c.startSec == c.durationSec) &&
          (c.startFrame == jsRound ((c.startSec * fps : Nat) : ℚ)) &&
          (c.endFrame == jsRound ((c.endSec * fps : Nat) : ℚ)) &&
          (c.text != "")) = true ∧
    contiguousFrom 0 (buildTimeline sections d footage graphics fps).clips
      = true ∧
    (buildTimeline sections d footage graphics fps).totalDurationSec
      = ((buildTimeline sections d footage graphics fps).clips.map
          (fun c => c.durationSec)).sum ∧
    ((buildTimeline sections d footage graphics fps).clips.map
        (fun c => c.endSec)).getLastD
      (buildTimeline sections d footage graphics fps).totalDurationSec
      = (buildTimeline sections d footage graphics fps).totalDurationSec := by
  rcases eq_or_ne sections.hook "" with h1 | h1 <;>
    rcases eq_or_ne sections.body "" with h2 | h2 <;>
      rcases eq_or_ne sections.cta "" with h3 | h3 <;>
        simp [buildTimeline, buildClipsAux, contiguousFrom, h1, h2, h3]
  all_goals omega

/-- Claim C6: the end-to-end example.  At the fixed 2.8 words-per-second
rate the three example sections get durations 1, 3 and 2 seconds, and the
timeline built from them spans [0,1), [1,4), [4,6) with total duration 6. -/
theorem claim_C6_end_to_end :
    sectionSeconds "Stop scrolling." = 1 ∧
      sectionSeconds "Lakers minus four is free money tonight." = 3 ∧
      sectionSeconds "Bet now on the link." = 2 ∧
      (buildTimeline
          ⟨"Stop scrolling.", "Lakers minus four is free money tonight.",
           "Bet now on the link."⟩
          (serverDurations
            ⟨"Stop scrolling.", "Lakers minus four is free money tonight.",
             "Bet now on the link."⟩) [] [] 30).totalDurationSec = 6 ∧
      (buildTimeline
          ⟨"Stop scrolling.", "Lakers minus four is free money tonight.",
           "Bet now on the link."⟩
          (serverDurations
            ⟨"Stop scrolling.", "Lakers minus four is free money tonight.",
             "Bet now on the link."⟩) [] [] 30).clips.map
        (fun c => (c.startSec, c.endSec)) = [(0, 1), (1, 4), (4, 6)] := by
  have hw1 : wordCount "Stop scrolling." = 2 := by decide
  have hw2 : wordCount "Lakers minus four is free money tonight." = 7 := by
    decide
  have hw3 : wordCount "Bet now on the link." = 5 := by decide
  have hs1 : sectionSeconds "Stop scrolling." = 1 := by
    rw [sectionSeconds, hw1, jsRound, WORDS_PER_SECOND]
    norm_num
  have hs2 : sectionSeconds "Lakers minus four is free money tonight." = 3 := by
    rw [sectionSeconds, hw2, jsRound, WORDS_PER_SECOND]
    norm_num
    decide
  have hs3 : sectionSeconds "Bet now on the link." = 2 := by
    rw [sectionSeconds, hw3, jsRound, WORDS_PER_SECOND]
    norm_num
    decide
  refine ⟨hs1, hs2, hs3, ?_, ?_⟩ <;>
    simp [buildTimeline, buildClipsAux, serverDurations, hs1, hs2, hs3]

/-- Counterexample to claim C7: when a section is empty the two
implementations assign footage differently.  The server indexes the footage
list by the number of clips emitted so far, the client by the fixed section
position, so with an empty hook the body and cta clips receive different
footage and the timelines are not identical. -/
theorem claim_C7_counterexample :
    (clientTimeline ⟨"", "one two three", "go now"⟩ ["a", "b", "c"] 30).clips.map
        (fun c => c.footage) = ["b", "c"] ∧
      (buildTimeline ⟨"", "one two three", "go now"⟩
          (serverDurations ⟨"", "one two three", "go now"⟩)
          ["a", "b", "c"] [] 30).clips.map
        (fun c => c.footage) = ["a", "b"] ∧
      clientTimeline ⟨"", "one two three", "go now"⟩ ["a", "b", "c"] 30
        ≠ buildTimeline ⟨"", "one two three", "go now"⟩
            (serverDurations ⟨"", "one two three", "go now"⟩)
            ["a", "b", "c"] [] 30 := by
  refine ⟨rfl, rfl, fun h => ?_⟩
  have hmap := congrArg
    (fun tl : EditingTimeline => tl.clips.map (fun c => c.footage)) h
  have : (["b", "c"] : List String) = ["a", "b"] := hmap
  simp at this

/-- Claim C7 as amended: the client-side recomputation and the server-side
builder coincide whenever all three section texts are non-empty (then the
clip index equals the section position, so the footage assignment agrees);
with an empty section only the footage fields can differ. -/
theorem claim_C7_amended (sections : ScriptSections)
    (footage graphics : List String) (fps : Nat)
    (h1 : sections.hook ≠ "") (h2 : sections.body ≠ "")
    (h3 : sections.cta ≠ "") :
    clientTimeline sections footage fps
      = buildTimeline sections (serverDurations sections) footage graphics
          fps := by
  simp [clientTimeline, buildTimeline, clientClipsAux, buildClipsAux,
        serverDurations, sectionSeconds, WORDS_PER_SECOND, h1, h2, h3]

/-- Witness for the amended claim C7 at concrete non-empty sections. -/
theorem claim_C7_amended_witness :
    ("Go" : String) ≠ "" ∧ ("mid part" : String) ≠ "" ∧
      ("end bit" : String) ≠ "" ∧
      clientTimeline ⟨"Go", "mid part", "end bit"⟩ ["a", "b"] 30
        = buildTimeline ⟨"Go", "mid part", "end bit"⟩
            (serverDurations ⟨"Go", "mid part", "end bit"⟩) ["a", "b"] [] 30 :=
  ⟨by decide, by decide, by decide,
   claim_C7_amended ⟨"Go", "mid part", "end bit"⟩ ["a", "b"] [] 30
     (by decide) (by decide) (by decide)⟩

end NovigScripter
